import Mathlib

/-!
# Verification of the voice-conversation gateway front-end core

This file gives a shallow embedding, in Lean 4, of the barge-in /
playback-tracking core of the repository:

* `TTSManager` (playback scheduling, `reset`, `isSpeaking`,
  `getPlaybackStats`) from `TTSManager.js`;
* `BargeInRmsDetector` (adaptive RMS voice-activity gate) from the same
  bundle;
* the WebSocket `handleMessage` transcript handling (partial / final
  entries and the final-deduplication window) from
  `www/static/js/message-handler.js`;
* the Float32 → Int16 sample conversion of `www/static/js/processor.js`.

Modelling conventions:

* JavaScript numbers are embedded as exact rationals `ℚ`; timestamps in
  milliseconds (`Date.now()`) as `ℤ`; counters as `ℕ`.
* JavaScript strings are embedded as `List Char`; `trim`, `toLowerCase`,
  `startsWith` and the falsy-`||` default are defined below.
* `Number.prototype.toFixed(d)` is embedded as rounding half-up at `d`
  decimal digits (`jsToFixed`).
* The detector's `_computeRmsFromInt16` returns `Math.sqrt` of the mean
  square, which has no exact rational value; the detector logic consumes
  only the resulting scalar, so `process` below takes the frame's RMS
  value directly.  All properties proved here constrain that RMS value.
* DOM state is modelled by its observable content: the transcript log is
  a list of entries, and `currentPartialEl` is `some t` exactly while a
  partial-transcript element (whose `dataset.lastText` is `t`) is
  attached to the log container.
-/

/-- JavaScript `Number.prototype.toFixed(digits)`, embedded as rounding
half-up at `digits` decimal places (the source uses it only for display
rounding of playback statistics). -/
def jsToFixed (digits : ℕ) (x : ℚ) : ℚ :=
  (⌊x * 10 ^ digits + 1 / 2⌋ : ℚ) / 10 ^ digits

/-- One entry of `TTSManager.chunkTimeline` (`chunkMeta` in `playChunk`). -/
structure Chunk where
  startAt : ℚ
  duration : ℚ
  textChars : ℚ
  ended : Bool
deriving DecidableEq

/-- The mutable state of `TTSManager`.  `activeNodes` keeps only the count
of scheduled `AudioBufferSourceNode`s (the code only ever tests
`activeNodes.length > 0`, empties the array, or pushes to it).
`hasContext` records whether an `AudioContext` exists (`this.context`). -/
structure TTSManager where
  hasContext : Bool
  activeNodes : ℕ
  nextPlayTime : ℚ
  bufferSeconds : ℚ
  chunkTimeline : List Chunk
  totalAudioSeconds : ℚ
  totalTextChars : ℚ
deriving DecidableEq

/-- The `TTSManager` constructor. -/
def TTSManager.init : TTSManager :=
  { hasContext := false
    activeNodes := 0
    nextPlayTime := 0
    bufferSeconds := 3 / 20
    chunkTimeline := []
    totalAudioSeconds := 0
    totalTextChars := 0 }

/-- Effect of `TTSManager.reset()`: stops every active node (here: drops them all),
clears the queue and the timeline, and zeroes the schedule clock and the
running totals. -/
def TTSManager.reset (s : TTSManager) : TTSManager :=
  { s with
    activeNodes := 0
    nextPlayTime := 0
    chunkTimeline := []
    totalAudioSeconds := 0
    totalTextChars := 0 }

/-- Embedding of `TTSManager.isSpeaking()`, with the audio clock `now`
(`context.currentTime`) passed explicitly. -/
def TTSManager.isSpeaking (s : TTSManager) (now : ℚ) : Bool :=
  s.hasContext && (decide (0 < s.activeNodes) || decide (now + 1 / 100 < s.nextPlayTime))

/-- The state effect of `TTSManager.playChunk` after the chunk has been
decoded: bump `nextPlayTime` to `now + bufferSeconds` if it lags, schedule
the source at the resulting time, extend the timeline and the totals, and
register the node. -/
def TTSManager.playChunk (s : TTSManager) (duration textChars now : ℚ) : TTSManager :=
  let startAt := if s.nextPlayTime < now + s.bufferSeconds then now + s.bufferSeconds else s.nextPlayTime
  { s with
    hasContext := true
    activeNodes := s.activeNodes + 1
    nextPlayTime := startAt + duration
    chunkTimeline := s.chunkTimeline ++ [⟨startAt, duration, textChars, false⟩]
    totalAudioSeconds := s.totalAudioSeconds + duration
    totalTextChars := s.totalTextChars + textChars }

/-- The result record of `TTSManager.getPlaybackStats()`. -/
structure PlaybackStats where
  played_audio_seconds : ℚ
  total_audio_seconds : ℚ
  playback_percent : ℚ
  played_text_percent : ℚ
deriving DecidableEq

/-- Audio-seconds contribution of one chunk in the `getPlaybackStats` loop. -/
def chunkPlayedAudio (now : ℚ) (c : Chunk) : ℚ :=
  if c.ended = true ∨ c.startAt + c.duration ≤ now then c.duration
  else if c.startAt < now then c.duration * max 0 (min 1 ((now - c.startAt) / c.duration))
  else 0

/-- Text-characters contribution of one chunk in the `getPlaybackStats` loop. -/
def chunkPlayedText (now : ℚ) (c : Chunk) : ℚ :=
  if c.ended = true ∨ c.startAt + c.duration ≤ now then c.textChars
  else if c.startAt < now then c.textChars * max 0 (min 1 ((now - c.startAt) / c.duration))
  else 0

/-- Embedding of `TTSManager.getPlaybackStats()`, with the audio clock `now` passed
explicitly. -/
def TTSManager.getPlaybackStats (s : TTSManager) (now : ℚ) : PlaybackStats :=
  if s.hasContext = false ∨ s.chunkTimeline = [] then
    { played_audio_seconds := 0
      total_audio_seconds := 0
      playback_percent := 0
      played_text_percent := 0 }
  else
    { played_audio_seconds := jsToFixed 3 (s.chunkTimeline.map (chunkPlayedAudio now)).sum
      total_audio_seconds := jsToFixed 3 (max s.totalAudioSeconds 0)
      playback_percent :=
        jsToFixed 1 (max 0 (min 100
          (if 0 < max s.totalAudioSeconds 0 then
            (s.chunkTimeline.map (chunkPlayedAudio now)).sum / max s.totalAudioSeconds 0 * 100
          else 0)))
      played_text_percent :=
        jsToFixed 1 (max 0 (min 100
          (if 0 < s.totalTextChars then
            (s.chunkTimeline.map (chunkPlayedText now)).sum / s.totalTextChars * 100
          else 0))) }

/-- Sample `TTSManager` state used by concrete witnesses: one scheduled
chunk of 1 s / 10 characters starting at `1/4`, consistent totals. -/
def sampleTTS : TTSManager :=
  { hasContext := true
    activeNodes := 1
    nextPlayTime := 5 / 4
    bufferSeconds := 3 / 20
    chunkTimeline := [⟨1 / 4, 1, 10, false⟩]
    totalAudioSeconds := 1
    totalTextChars := 10 }

/-- The constructor options of `BargeInRmsDetector`, with the `??`
defaults recorded in `BargeInOptions.default`. -/
structure BargeInOptions where
  baseThreshold : ℚ
  minFrames : ℕ
  cooldownMs : ℤ
  visMax : ℚ
  noiseAlpha : ℚ
  noiseMultiplier : ℚ
  minDynamicThreshold : ℚ
  maxDynamicThreshold : ℚ
  initialAmbient : ℚ
deriving DecidableEq

/-- The default option values of the `BargeInRmsDetector` constructor
(0.014, 2, 900, 0.05, 0.05, 2.8, 0.010, 0.035, 0.004). -/
def BargeInOptions.default : BargeInOptions :=
  { baseThreshold := 14 / 1000
    minFrames := 2
    cooldownMs := 900
    visMax := 5 / 100
    noiseAlpha := 5 / 100
    noiseMultiplier := 28 / 10
    minDynamicThreshold := 1 / 100
    maxDynamicThreshold := 35 / 1000
    initialAmbient := 4 / 1000 }

/-- The mutable state of `BargeInRmsDetector`. -/
structure BargeInRmsDetector where
  speechFrames : ℕ
  lastTriggeredAt : ℤ
  ambientRmsEma : ℚ
  currentThreshold : ℚ
deriving DecidableEq

/-- The `BargeInRmsDetector` constructor state. -/
def BargeInRmsDetector.init (o : BargeInOptions) : BargeInRmsDetector :=
  { speechFrames := 0
    lastTriggeredAt := 0
    ambientRmsEma := o.initialAmbient
    currentThreshold := o.baseThreshold }

/-- Embedding of `BargeInRmsDetector._clamp(value, min, max)`. -/
def clampQ (value lo hi : ℚ) : ℚ := max lo (min hi value)

/-- Embedding of `BargeInRmsDetector._computeDynamicThreshold()`:
`clamp(max(baseThreshold, ambientRmsEma * noiseMultiplier),
minDynamicThreshold, maxDynamicThreshold)`. -/
def computeDynamicThreshold (o : BargeInOptions) (ambientRmsEma : ℚ) : ℚ :=
  clampQ (max o.baseThreshold (ambientRmsEma * o.noiseMultiplier))
    o.minDynamicThreshold o.maxDynamicThreshold

/-- The per-frame result record of `BargeInRmsDetector.process`. -/
structure ActivitySample where
  triggered : Bool
  rms : ℚ
  threshold : ℚ
  state : String
  visMax : ℚ
deriving DecidableEq

/-- The updated ambient EMA of `process` when it learns a frame:
`(1 - noiseAlpha) * ambientRmsEma + noiseAlpha * rms`. -/
def updatedEma (o : BargeInOptions) (d : BargeInRmsDetector) (rms : ℚ) : ℚ :=
  (1 - o.noiseAlpha) * d.ambientRmsEma + o.noiseAlpha * rms

/-- The speech-run counter after one frame while TTS is speaking:
incremented at or above threshold, else decremented; `- 1` on `ℕ` is
exactly the source's `Math.max(0, speechFrames - 1)`. -/
def nextSpeechFrames (o : BargeInOptions) (d : BargeInRmsDetector) (rms : ℚ) : ℕ :=
  if computeDynamicThreshold o d.ambientRmsEma ≤ rms then d.speechFrames + 1
  else d.speechFrames - 1

/-- The `state` string computed by `process` while TTS is speaking. -/
def frameState (o : BargeInOptions) (d : BargeInRmsDetector) (rms : ℚ) : String :=
  if computeDynamicThreshold o d.ambientRmsEma ≤ rms then
    (if o.minFrames ≤ nextSpeechFrames o d rms then "trigger" else "near")
  else
    (if computeDynamicThreshold o d.ambientRmsEma * (7 / 10) ≤ rms then "near"
     else "silence")

/-- Embedding of `BargeInRmsDetector.process(int16Data, isTtsSpeaking)`: takes the
frame's RMS value (see the header note on `_computeRmsFromInt16`) and the
current `Date.now()` in milliseconds, and returns the emitted
`ActivitySample` together with the successor detector state. -/
def BargeInRmsDetector.process (d : BargeInRmsDetector) (o : BargeInOptions)
    (rms : ℚ) (isTtsSpeaking : Bool) (nowMs : ℤ) :
    ActivitySample × BargeInRmsDetector :=
  if isTtsSpeaking = false then
    if rms ≤ o.visMax then
      (⟨false, rms, computeDynamicThreshold o (updatedEma o d rms), "silence", o.visMax⟩,
        ⟨0, d.lastTriggeredAt, updatedEma o d rms,
          computeDynamicThreshold o (updatedEma o d rms)⟩)
    else
      (⟨false, rms, computeDynamicThreshold o d.ambientRmsEma, "silence", o.visMax⟩,
        ⟨0, d.lastTriggeredAt, d.ambientRmsEma,
          computeDynamicThreshold o d.ambientRmsEma⟩)
  else
    if o.minFrames ≤ nextSpeechFrames o d rms ∧
        o.cooldownMs ≤ nowMs - d.lastTriggeredAt then
      (⟨true, rms, computeDynamicThreshold o d.ambientRmsEma, frameState o d rms, o.visMax⟩,
        ⟨0, nowMs, d.ambientRmsEma, computeDynamicThreshold o d.ambientRmsEma⟩)
    else
      (⟨false, rms, computeDynamicThreshold o d.ambientRmsEma, frameState o d rms, o.visMax⟩,
        ⟨nextSpeechFrames o d rms, d.lastTriggeredAt, d.ambientRmsEma,
          computeDynamicThreshold o d.ambientRmsEma⟩)

/-- One `process()` call of a recorded detector run: the frame's RMS,
whether TTS playback was active, and the call's `Date.now()`. -/
structure DetInput where
  rms : ℚ
  ttsSpeaking : Bool
  nowMs : ℤ
deriving DecidableEq

/-- The samples emitted by a sequence of `process()` calls. -/
def processTrace (o : BargeInOptions) (d : BargeInRmsDetector) :
    List DetInput → List ActivitySample
  | [] => []
  | i :: rest =>
    (d.process o i.rms i.ttsSpeaking i.nowMs).1 ::
      processTrace o (d.process o i.rms i.ttsSpeaking i.nowMs).2 rest

/-- The call times of the `process()` calls of a run whose result had
`triggered = true`. -/
def triggerTimes (o : BargeInOptions) (d : BargeInRmsDetector) :
    List DetInput → List ℤ
  | [] => []
  | i :: rest =>
    (if (d.process o i.rms i.ttsSpeaking i.nowMs).1.triggered = true
      then [i.nowMs] else []) ++
      triggerTimes o (d.process o i.rms i.ttsSpeaking i.nowMs).2 rest

/-- JavaScript strings, embedded as their character lists. -/
abbrev JsString := List Char

/-- JavaScript `String.prototype.toLowerCase()` (ASCII case mapping). -/
def jsToLower (s : JsString) : JsString := s.map Char.toLower

/-- JavaScript `String.prototype.trim()`: strip leading and trailing
whitespace. -/
def jsTrim (s : JsString) : JsString :=
  ((s.dropWhile Char.isWhitespace).reverse.dropWhile Char.isWhitespace).reverse

/-- JavaScript `a.startsWith(b)`. -/
def jsStartsWith (s p : JsString) : Bool := p.isPrefixOf s

/-- JavaScript `s || d` for strings: the empty string is falsy. -/
def jsOrDefault (s d : JsString) : JsString := if s = [] then d else s

/-- One rendered transcript entry of the log container: the
final-plus-translation block appended by the `final` branch of
`handleMessage`. -/
inductive LogEntry where
  | finalLine (inLang outLang original translation : JsString)
deriving DecidableEq

/-- The handler state of `message-handler.js` observable in the claims:
`currentPartialEl` is `some t` exactly while the partial-transcript
element (with `dataset.lastText = t`) is attached to the log;
`logEntries` is the list of appended final entries; the two dedup
variables mirror `lastFinalSignature` / `lastFinalAtMs`. -/
structure MsgHandlerState where
  currentPartialEl : Option JsString
  logEntries : List LogEntry
  lastFinalSignature : JsString
  lastFinalAtMs : ℤ
deriving DecidableEq

/-- Script-load state: no partial element, empty log, empty dedup
signature, `lastFinalAtMs = 0`. -/
def initialHandlerState : MsgHandlerState :=
  { currentPartialEl := none
    logEntries := []
    lastFinalSignature := []
    lastFinalAtMs := 0 }

/-- The two inbound transcript messages the claims are about
(`data.type === 'partial' | 'final'`, with the fields the handler
reads; an absent field is the empty string, matching `data.x || ''`). -/
inductive WsMessage where
  | transcriptPartial (original : JsString)
  | transcriptFinal (original inputLang outputLang translation : JsString)
deriving DecidableEq

/-- The constant `FINAL_DEDUP_WINDOW_MS`. -/
def FINAL_DEDUP_WINDOW_MS : ℤ := 2500

/-- The dedup signature of a final message:
`inLang|outLang|originalText.toLowerCase()` after the `|| 'SRC'` /
`|| 'TGT'` language defaults, where `originalText` is the trimmed
original. -/
def finalSignature (inputLang outputLang originalText : JsString) : JsString :=
  jsOrDefault inputLang ['S', 'R', 'C'] ++ '|' ::
    (jsOrDefault outputLang ['T', 'G', 'T'] ++ '|' :: jsToLower originalText)

/-- Embedding of `handleMessage(data)`, restricted to the transcript messages, with the
wall clock (`Date.now()`) passed explicitly. -/
def handleMessage (st : MsgHandlerState) (msg : WsMessage) (nowMs : ℤ) :
    MsgHandlerState :=
  match msg with
  | .transcriptPartial original =>
    if jsTrim original = [] then st
    else
      if jsTrim original = (st.currentPartialEl.getD []) then st
      else
        if (st.currentPartialEl.getD []) ≠ [] ∧
            jsStartsWith (st.currentPartialEl.getD []) (jsTrim original) = true then st
        else { st with currentPartialEl := some (jsTrim original) }
  | .transcriptFinal original inputLang outputLang translation =>
    if jsTrim original = [] then { st with currentPartialEl := none }
    else
      if finalSignature inputLang outputLang (jsTrim original) = st.lastFinalSignature ∧
          nowMs - st.lastFinalAtMs < FINAL_DEDUP_WINDOW_MS then
        { st with currentPartialEl := none }
      else
        { st with
          currentPartialEl := none
          lastFinalSignature := finalSignature inputLang outputLang (jsTrim original)
          lastFinalAtMs := nowMs
          logEntries := st.logEntries ++
            [.finalLine (jsOrDefault inputLang ['S', 'R', 'C'])
              (jsOrDefault outputLang ['T', 'G', 'T']) (jsTrim original) translation] }

/-- Float32 → Int16 sample conversion of `PCMProcessor.process`: clamp the
sample to `[-1, 1]`, then scale by `0x8000` when negative and by `0x7FFF`
otherwise. -/
def convertSample (x : ℚ) : ℚ :=
  if max (-1) (min 1 x) < 0 then max (-1) (min 1 x) * 32768
  else max (-1) (min 1 x) * 32767

/-- Truncation toward zero, as JavaScript applies to a number stored into
an `Int16Array` (no wrap occurs within the Int16 range). -/
def ratTrunc (v : ℚ) : ℤ := if 0 ≤ v then ⌊v⌋ else ⌈v⌉

/-- The Int16 value actually stored into the outgoing PCM buffer. -/
def storedSample (x : ℚ) : ℤ := ratTrunc (convertSample x)

/-- A recorded conversation turn (server-side data model; see
`recordBargeInTurn`). -/
structure ConversationTurn where
  userText : JsString
  agentText : JsString
  interrupted : Bool
  spokenText : JsString
deriving DecidableEq

/-- Modelled from the spec: the server-side orchestrator is not among the
sources; per spec §4.3 step 3, on barge-in it derives `spokenText` as
"the prefix of the agent's text proportional to `playedTextPercent`"
from the playback-stats snapshot sent by the client. -/
def spokenTextOfStats (agentText : JsString) (playedTextPercent : ℚ) : JsString :=
  agentText.take (⌊(agentText.length : ℚ) * playedTextPercent / 100⌋).toNat

/-- Modelled from the spec: per spec §4.3 step 4, the orchestrator then
records a `ConversationTurn` with `interrupted = true`, the agent's text,
and the derived `spokenText`. -/
def recordBargeInTurn (userText agentText : JsString) (stats : PlaybackStats) :
    ConversationTurn :=
  { userText := userText
    agentText := agentText
    interrupted := true
    spokenText := spokenTextOfStats agentText stats.played_text_percent }

/-- The claim C2 scenario state: one scheduled chunk of duration 2 s and
40 text characters starting at `T`, with the totals `playChunk` would
have accumulated. -/
def scenarioBState (T : ℚ) : TTSManager :=
  { hasContext := true
    activeNodes := 1
    nextPlayTime := T + 2
    bufferSeconds := 3 / 20
    chunkTimeline := [⟨T, 2, 40, false⟩]
    totalAudioSeconds := 2
    totalTextChars := 40 }

/-- C5: calling `reset()` (the barge-in stop path) halts every scheduled
chunk (no active node survives) and clears the timeline, and afterwards
`isSpeaking()` returns `false` — for every prior playback state and every
audio-clock value (`context.currentTime` is never negative). -/
theorem reset_stops_all (s : TTSManager) (now : ℚ) (hnow : 0 ≤ now) :
    s.reset.chunkTimeline = [] ∧ s.reset.activeNodes = 0 ∧
      s.reset.isSpeaking now = false := by
  refine ⟨rfl, rfl, ?_⟩
  have h1 : ¬ (now + 1 / 100 < (0 : ℚ)) := by linarith
  simp [TTSManager.reset, TTSManager.isSpeaking, h1]
  intro _
  linarith

/-- Witness for C5 at a concrete playback state and clock value. -/
theorem reset_stops_all_witness :
    (0 : ℚ) ≤ 2 ∧ sampleTTS.reset.isSpeaking 2 = false :=
  ⟨by norm_num, (reset_stops_all sampleTTS 2 (by norm_num)).2.2⟩

theorem ite_lt_eq_max (a b : ℚ) : (if b < a then a else b) = max a b := by
  rcases le_or_lt a b with h | h
  · rw [if_neg (not_lt.mpr h), max_eq_right h]
  · rw [if_pos h, max_eq_left h.le]

/-- C6: `playChunk` schedules the new chunk at
`max(now + bufferSeconds, end of the previously scheduled chunk)`: under
the schedule invariant (`nextPlayTime` equals the previous chunk's end),
the appended chunk starts at that maximum, never before the previous
chunk ends (strictly after the previous chunk starts when it has positive
duration), starts exactly at the previous end when the look-ahead bound
is not binding (gapless back-to-back playback), and the invariant is
re-established for the next call. -/
theorem playChunk_gapless (s : TTSManager) (duration textChars now : ℚ)
    (prev : Chunk) (hlast : s.chunkTimeline.getLast? = some prev)
    (hinv : s.nextPlayTime = prev.startAt + prev.duration) :
    (s.playChunk duration textChars now).chunkTimeline.getLast? =
        some ⟨max (now + s.bufferSeconds) (prev.startAt + prev.duration),
              duration, textChars, false⟩ ∧
      prev.startAt + prev.duration ≤
        max (now + s.bufferSeconds) (prev.startAt + prev.duration) ∧
      (0 < prev.duration →
        prev.startAt < max (now + s.bufferSeconds) (prev.startAt + prev.duration)) ∧
      (now + s.bufferSeconds ≤ prev.startAt + prev.duration →
        max (now + s.bufferSeconds) (prev.startAt + prev.duration) =
          prev.startAt + prev.duration) ∧
      (s.playChunk duration textChars now).nextPlayTime =
        max (now + s.bufferSeconds) (prev.startAt + prev.duration) + duration := by
  have hstart : (if s.nextPlayTime < now + s.bufferSeconds then now + s.bufferSeconds
      else s.nextPlayTime) = max (now + s.bufferSeconds) (prev.startAt + prev.duration) := by
    rw [ite_lt_eq_max, hinv]
  refine ⟨?_, le_max_right _ _, ?_, ?_, ?_⟩
  · simp only [TTSManager.playChunk, hstart, List.getLast?_concat]
  · intro hd
    exact lt_of_lt_of_le (by linarith) (le_max_right _ _)
  · intro hle
    exact max_eq_right hle
  · simp only [TTSManager.playChunk, hstart]

/-- Witness for C6: a second chunk scheduled on `sampleTTS` (whose single
chunk ends at `5/4 = 1/4 + 1`) starts at `max(now + 3/20, 5/4)`. -/
theorem playChunk_gapless_witness :
    (sampleTTS.playChunk 2 7 1).chunkTimeline.getLast? =
        some ⟨max ((1 : ℚ) + 3 / 20) (1 / 4 + 1), 2, 7, false⟩ ∧
      ((1 : ℚ) / 4 + 1 ≤ max ((1 : ℚ) + 3 / 20) (1 / 4 + 1)) :=
  ⟨(playChunk_gapless sampleTTS 2 7 1 ⟨1 / 4, 1, 10, false⟩ rfl (by norm_num [sampleTTS])).1,
   (playChunk_gapless sampleTTS 2 7 1 ⟨1 / 4, 1, 10, false⟩ rfl (by norm_num [sampleTTS])).2.1⟩


theorem jsToFixed_mono (d : ℕ) {x y : ℚ} (h : x ≤ y) : jsToFixed d x ≤ jsToFixed d y := by
  unfold jsToFixed
  have hp : (0 : ℚ) < 10 ^ d := by positivity
  have hfl : (⌊x * 10 ^ d + 1 / 2⌋ : ℤ) ≤ ⌊y * 10 ^ d + 1 / 2⌋ :=
    Int.floor_le_floor (by nlinarith)
  exact (div_le_div_right hp).mpr (by exact_mod_cast hfl)

theorem chunkPlayedAudio_nonneg (now : ℚ) (c : Chunk) (hd : 0 ≤ c.duration) :
    0 ≤ chunkPlayedAudio now c := by
  unfold chunkPlayedAudio
  split_ifs with h1 h2
  · exact hd
  · exact mul_nonneg hd (le_max_left _ _)
  · exact le_refl 0

theorem chunkPlayedAudio_le_duration (now : ℚ) (c : Chunk) (hd : 0 ≤ c.duration) :
    chunkPlayedAudio now c ≤ c.duration := by
  unfold chunkPlayedAudio
  split_ifs with h1 h2
  · exact le_refl _
  · have hle : max 0 (min 1 ((now - c.startAt) / c.duration)) ≤ 1 :=
      max_le zero_le_one (min_le_left _ _)
    nlinarith
  · exact hd

theorem chunkPlayedAudio_mono (c : Chunk) (hd : 0 ≤ c.duration) {n1 n2 : ℚ} (h : n1 ≤ n2) :
    chunkPlayedAudio n1 c ≤ chunkPlayedAudio n2 c := by
  by_cases hdone : c.ended = true ∨ c.startAt + c.duration ≤ n2
  · have h2 : chunkPlayedAudio n2 c = c.duration := by
      unfold chunkPlayedAudio
      rw [if_pos hdone]
    rw [h2]
    exact chunkPlayedAudio_le_duration n1 c hd
  · push_neg at hdone
    obtain ⟨hne, hlt⟩ := hdone
    have hd1 : ¬ (c.ended = true ∨ c.startAt + c.duration ≤ n1) := by
      push_neg
      exact ⟨hne, by linarith⟩
    have hd2 : ¬ (c.ended = true ∨ c.startAt + c.duration ≤ n2) := by
      push_neg
      exact ⟨hne, hlt⟩
    unfold chunkPlayedAudio
    rw [if_neg hd1, if_neg hd2]
    by_cases hs2 : c.startAt < n2
    · rw [if_pos hs2]
      by_cases hs1 : c.startAt < n1
      · rw [if_pos hs1]
        have hdpos : 0 < c.duration := by linarith
        have hr : (n1 - c.startAt) / c.duration ≤ (n2 - c.startAt) / c.duration :=
          (div_le_div_right hdpos).mpr (by linarith)
        have hcl : max 0 (min 1 ((n1 - c.startAt) / c.duration)) ≤
            max 0 (min 1 ((n2 - c.startAt) / c.duration)) :=
          max_le_max (le_refl 0) (min_le_min (le_refl 1) hr)
        exact mul_le_mul_of_nonneg_left hcl hd
      · rw [if_neg hs1]
        exact mul_nonneg hd (le_max_left _ _)
    · rw [if_neg hs2, if_neg (fun hc => hs2 (lt_of_lt_of_le hc h))]

/-- C1: for a fixed timeline, `getPlaybackStats().played_audio_seconds` is
monotonically non-decreasing as the audio clock advances, and once every
chunk has ended (its `ended` flag set, or the clock at or past
`startAt + duration`) it equals `total_audio_seconds` — under the
well-formedness facts `playChunk` maintains: chunk durations are
non-negative and `totalAudioSeconds` is the sum of the timeline's
durations. -/
theorem getPlaybackStats_monotone_complete (s : TTSManager)
    (hdur : ∀ c ∈ s.chunkTimeline, 0 ≤ c.duration)
    (htot : s.totalAudioSeconds = (s.chunkTimeline.map Chunk.duration).sum) :
    (∀ now1 now2 : ℚ, now1 ≤ now2 →
        (s.getPlaybackStats now1).played_audio_seconds ≤
          (s.getPlaybackStats now2).played_audio_seconds) ∧
      (∀ now : ℚ, (∀ c ∈ s.chunkTimeline, c.ended = true ∨ c.startAt + c.duration ≤ now) →
        (s.getPlaybackStats now).played_audio_seconds =
          (s.getPlaybackStats now).total_audio_seconds) := by
  constructor
  · intro now1 now2 h
    unfold TTSManager.getPlaybackStats
    by_cases hz : s.hasContext = false ∨ s.chunkTimeline = []
    · rw [if_pos hz, if_pos hz]
    · rw [if_neg hz, if_neg hz]
      exact jsToFixed_mono 3
        (List.sum_le_sum fun c hc => chunkPlayedAudio_mono c (hdur c hc) h)
  · intro now hdone
    unfold TTSManager.getPlaybackStats
    by_cases hz : s.hasContext = false ∨ s.chunkTimeline = []
    · rw [if_pos hz]
    · rw [if_neg hz]
      have hmap : s.chunkTimeline.map (chunkPlayedAudio now) =
          s.chunkTimeline.map Chunk.duration := by
        apply List.map_congr_left
        intro c hc
        unfold chunkPlayedAudio
        rw [if_pos (hdone c hc)]
      have hnn : 0 ≤ s.totalAudioSeconds := by
        rw [htot]
        refine List.sum_nonneg fun x hx => ?_
        obtain ⟨c, hc, rfl⟩ := List.mem_map.mp hx
        exact hdur c hc
      show jsToFixed 3 (s.chunkTimeline.map (chunkPlayedAudio now)).sum =
        jsToFixed 3 (max s.totalAudioSeconds 0)
      rw [hmap, ← htot, max_eq_left hnn]

/-- Witness for C1: concrete monotonicity step and completion on
`sampleTTS`. -/
theorem getPlaybackStats_monotone_complete_witness :
    ((sampleTTS.getPlaybackStats 0).played_audio_seconds ≤
        (sampleTTS.getPlaybackStats 1).played_audio_seconds) ∧
      (sampleTTS.getPlaybackStats 3).played_audio_seconds =
        (sampleTTS.getPlaybackStats 3).total_audio_seconds :=
  ⟨(getPlaybackStats_monotone_complete sampleTTS
      (by intro c hc; rw [sampleTTS, List.mem_singleton] at hc; subst hc; norm_num)
      (by norm_num [sampleTTS])).1 0 1 (by norm_num),
   (getPlaybackStats_monotone_complete sampleTTS
      (by intro c hc; rw [sampleTTS, List.mem_singleton] at hc; subst hc; norm_num)
      (by norm_num [sampleTTS])).2 3
      (by intro c hc; rw [sampleTTS, List.mem_singleton] at hc; subst hc
          exact Or.inr (by norm_num))⟩

theorem process_triggered_conditions (d : BargeInRmsDetector) (o : BargeInOptions)
    (rms : ℚ) (isTts : Bool) (now : ℤ)
    (htrig : (d.process o rms isTts now).1.triggered = true) :
    isTts = true ∧ o.minFrames ≤ nextSpeechFrames o d rms ∧
      o.cooldownMs ≤ now - d.lastTriggeredAt ∧
      (d.process o rms isTts now).2.speechFrames = 0 ∧
      (d.process o rms isTts now).2.lastTriggeredAt = now := by
  cases isTts with
  | false =>
    exfalso
    unfold BargeInRmsDetector.process at htrig
    rw [if_pos rfl] at htrig
    split_ifs at htrig
  | true =>
    unfold BargeInRmsDetector.process at htrig ⊢
    rw [if_neg (by simp)] at htrig ⊢
    by_cases hc : o.minFrames ≤ nextSpeechFrames o d rms ∧
        o.cooldownMs ≤ now - d.lastTriggeredAt
    · rw [if_pos hc] at htrig ⊢
      exact ⟨rfl, hc.1, hc.2, rfl, rfl⟩
    · rw [if_neg hc] at htrig
      simp at htrig

theorem process_lastTriggeredAt_le (o : BargeInOptions) (hcd : 0 ≤ o.cooldownMs)
    (d : BargeInRmsDetector) (rms : ℚ) (isTts : Bool) (now : ℤ) :
    d.lastTriggeredAt ≤ (d.process o rms isTts now).2.lastTriggeredAt := by
  unfold BargeInRmsDetector.process
  split_ifs with h1 h2 h3
  · exact le_refl _
  · exact le_refl _
  · obtain ⟨-, h4⟩ := h3
    show d.lastTriggeredAt ≤ now
    omega
  · exact le_refl _

theorem triggerTimes_lower (o : BargeInOptions) (hcd : 0 ≤ o.cooldownMs) :
    ∀ (inputs : List DetInput) (d : BargeInRmsDetector) (t : ℤ),
      t ∈ triggerTimes o d inputs → d.lastTriggeredAt + o.cooldownMs ≤ t := by
  intro inputs
  induction inputs with
  | nil =>
    intro d t ht
    simp [triggerTimes] at ht
  | cons i rest ih =>
    intro d t ht
    unfold triggerTimes at ht
    rw [List.mem_append] at ht
    rcases ht with h | h
    · by_cases htr : (d.process o i.rms i.ttsSpeaking i.nowMs).1.triggered = true
      · rw [if_pos htr, List.mem_singleton] at h
        subst h
        have hcool :=
          (process_triggered_conditions d o i.rms i.ttsSpeaking i.nowMs htr).2.2.1
        omega
      · rw [if_neg htr] at h
        simp at h
    · have h2 := ih (d.process o i.rms i.ttsSpeaking i.nowMs).2 t h
      have h3 := process_lastTriggeredAt_le o hcd d i.rms i.ttsSpeaking i.nowMs
      omega

theorem triggerTimes_pairwise (o : BargeInOptions) (hcd : 0 ≤ o.cooldownMs) :
    ∀ (inputs : List DetInput) (d : BargeInRmsDetector),
      (triggerTimes o d inputs).Pairwise fun a b => a + o.cooldownMs ≤ b := by
  intro inputs
  induction inputs with
  | nil =>
    intro d
    simp [triggerTimes]
  | cons i rest ih =>
    intro d
    unfold triggerTimes
    by_cases htr : (d.process o i.rms i.ttsSpeaking i.nowMs).1.triggered = true
    · rw [if_pos htr, List.singleton_append]
      refine List.Pairwise.cons ?_ (ih _)
      intro t ht
      have hlow := triggerTimes_lower o hcd rest
        (d.process o i.rms i.ttsSpeaking i.nowMs).2 t ht
      have hlast :=
        (process_triggered_conditions d o i.rms i.ttsSpeaking i.nowMs htr).2.2.2.2
      omega
    · rw [if_neg htr, List.nil_append]
      exact ih _

/-- C3: over every sequence of `process()` calls, a call returns
`triggered = true` only while TTS is speaking, with the updated
consecutive-speech-frame counter at `minFrames` or above, and with at
least `cooldownMs` elapsed since the previous trigger; a firing resets
the run counter to zero and restarts the cooldown clock at the call's
time; consequently the trigger times of any run are pairwise at least
`cooldownMs` apart. -/
theorem detector_trigger_discipline (o : BargeInOptions) (hcd : 0 ≤ o.cooldownMs) :
    (∀ (d : BargeInRmsDetector) (rms : ℚ) (isTts : Bool) (now : ℤ),
        (d.process o rms isTts now).1.triggered = true →
          isTts = true ∧ o.minFrames ≤ nextSpeechFrames o d rms ∧
            o.cooldownMs ≤ now - d.lastTriggeredAt ∧
            (d.process o rms isTts now).2.speechFrames = 0 ∧
            (d.process o rms isTts now).2.lastTriggeredAt = now) ∧
      ∀ (d : BargeInRmsDetector) (inputs : List DetInput),
        (triggerTimes o d inputs).Pairwise fun a b => a + o.cooldownMs ≤ b :=
  ⟨fun d rms isTts now h => process_triggered_conditions d o rms isTts now h,
   fun d inputs => triggerTimes_pairwise o hcd inputs d⟩

/-- Witness for C3 with the detector's default options and a concrete
two-frame run. -/
theorem detector_trigger_discipline_witness :
    (0 : ℤ) ≤ BargeInOptions.default.cooldownMs ∧
      (triggerTimes BargeInOptions.default
          (BargeInRmsDetector.init BargeInOptions.default)
          [⟨1, true, 1000⟩, ⟨1, true, 1100⟩]).Pairwise
        (fun a b => a + BargeInOptions.default.cooldownMs ≤ b) :=
  ⟨by decide, (detector_trigger_discipline BargeInOptions.default (by decide)).2 _ _⟩

theorem base_le_dynamicThreshold (o : BargeInOptions)
    (h : o.baseThreshold ≤ o.maxDynamicThreshold) (ema : ℚ) :
    o.baseThreshold ≤ computeDynamicThreshold o ema := by
  unfold computeDynamicThreshold clampQ
  exact (le_min h (le_max_left _ _)).trans (le_max_right _ _)

theorem no_trigger_below_base_aux (o : BargeInOptions)
    (hbm : o.baseThreshold ≤ o.maxDynamicThreshold) (hmf : 1 ≤ o.minFrames) :
    ∀ (inputs : List DetInput) (d : BargeInRmsDetector), d.speechFrames = 0 →
      (∀ i ∈ inputs, i.rms < o.baseThreshold ∧ i.ttsSpeaking = true) →
      ∀ a ∈ processTrace o d inputs, a.triggered = false := by
  intro inputs
  induction inputs with
  | nil =>
    intro d h0 hin a ha
    simp [processTrace] at ha
  | cons i rest ih =>
    intro d h0 hin a ha
    have hi := hin i (List.mem_cons_self i rest)
    have hrms : ¬ (computeDynamicThreshold o d.ambientRmsEma ≤ i.rms) :=
      not_le.mpr (lt_of_lt_of_le hi.1 (base_le_dynamicThreshold o hbm d.ambientRmsEma))
    have hsf : nextSpeechFrames o d i.rms = 0 := by
      unfold nextSpeechFrames
      rw [if_neg hrms, h0]
    have hcond : ¬ (o.minFrames ≤ nextSpeechFrames o d i.rms ∧
        o.cooldownMs ≤ i.nowMs - d.lastTriggeredAt) := by
      rw [hsf]
      intro hc
      omega
    have hproc : d.process o i.rms i.ttsSpeaking i.nowMs =
        (⟨false, i.rms, computeDynamicThreshold o d.ambientRmsEma,
            frameState o d i.rms, o.visMax⟩,
          ⟨nextSpeechFrames o d i.rms, d.lastTriggeredAt, d.ambientRmsEma,
            computeDynamicThreshold o d.ambientRmsEma⟩) := by
      unfold BargeInRmsDetector.process
      rw [hi.2, if_neg (by simp), if_neg hcond]
    unfold processTrace at ha
    rw [hproc] at ha
    rcases List.mem_cons.mp ha with h | h
    · rw [h]
    · exact ih _ hsf (fun j hj => hin j (List.mem_cons_of_mem _ hj)) a h

/-- C4: starting from a fresh detector, over every frame sequence whose
RMS stays below `baseThreshold`, processed with `ttsIsSpeaking = true`,
every returned `ActivitySample` has `triggered = false`: the dynamic
threshold never drops below `baseThreshold` (given the configuration
invariant `baseThreshold ≤ maxDynamicThreshold`, satisfied by the shipped
defaults), so such frames never build a speech run (`minFrames ≥ 1`,
also satisfied by the defaults). -/
theorem detector_silent_below_base (o : BargeInOptions)
    (hbm : o.baseThreshold ≤ o.maxDynamicThreshold) (hmf : 1 ≤ o.minFrames)
    (inputs : List DetInput)
    (hin : ∀ i ∈ inputs, i.rms < o.baseThreshold ∧ i.ttsSpeaking = true) :
    ∀ a ∈ processTrace o (BargeInRmsDetector.init o) inputs, a.triggered = false :=
  no_trigger_below_base_aux o hbm hmf inputs _ rfl hin

/-- Witness for C4 with the default options and two concrete sub-threshold
frames. -/
theorem detector_silent_below_base_witness :
    ((14 : ℚ) / 1000 ≤ 35 / 1000) ∧
      ∀ a ∈ processTrace BargeInOptions.default
          (BargeInRmsDetector.init BargeInOptions.default)
          [⟨1 / 100, true, 0⟩, ⟨13 / 1000, true, 40⟩], a.triggered = false :=
  ⟨by norm_num,
   detector_silent_below_base BargeInOptions.default
     (by norm_num [BargeInOptions.default]) (by norm_num [BargeInOptions.default]) _
     (by
       intro i hi
       rcases List.mem_cons.mp hi with h | h
       · rw [h]
         exact ⟨by norm_num [BargeInOptions.default], rfl⟩
       · rw [List.mem_singleton] at h
         rw [h]
         exact ⟨by norm_num [BargeInOptions.default], rfl⟩)⟩

/-- C7 (amended): `process` updates `ambientRmsEma` exactly when no TTS
audio is playing and the frame's RMS is at or below `visMax` (the source
comparison is `<=`, not strict); in every other case `ambientRmsEma` is
left unchanged. -/
theorem ambientEma_update_rule (o : BargeInOptions) (d : BargeInRmsDetector)
    (rms : ℚ) (isTts : Bool) (now : ℤ) :
    (isTts = false ∧ rms ≤ o.visMax →
        (d.process o rms isTts now).2.ambientRmsEma = updatedEma o d rms) ∧
      ((isTts = true ∨ o.visMax < rms) →
        (d.process o rms isTts now).2.ambientRmsEma = d.ambientRmsEma) := by
  constructor
  · rintro ⟨rfl, hr⟩
    unfold BargeInRmsDetector.process
    rw [if_pos rfl, if_pos hr]
  · intro h
    unfold BargeInRmsDetector.process
    rcases h with rfl | hr
    · rw [if_neg (by simp)]
      split_ifs <;> rfl
    · cases isTts with
      | false => rw [if_pos rfl, if_neg (not_le.mpr hr)]
      | true =>
        rw [if_neg (by simp)]
        split_ifs <;> rfl

/-- Witness for C7's amended rule: a frame processed while TTS is speaking
leaves the ambient EMA unchanged. -/
theorem ambientEma_update_rule_witness :
    ((BargeInRmsDetector.init BargeInOptions.default).process
        BargeInOptions.default 1 true 0).2.ambientRmsEma =
      (BargeInRmsDetector.init BargeInOptions.default).ambientRmsEma :=
  (ambientEma_update_rule BargeInOptions.default
    (BargeInRmsDetector.init BargeInOptions.default) 1 true 0).2 (Or.inl rfl)

/-- C7 counterexample: with the default options and TTS silent, a frame
whose RMS equals `visMax` exactly — hence is not *below* the
visualization ceiling — still changes `ambientRmsEma`, so the claim's
"updated only when ... RMS is below visMax, otherwise unchanged" fails at
the boundary (the source tests `rms <= visMax`). -/
theorem ambientEma_boundary_counterexample :
    ¬ ((1 : ℚ) / 20 < BargeInOptions.default.visMax) ∧
      ((BargeInRmsDetector.init BargeInOptions.default).process
          BargeInOptions.default (1 / 20) false 0).2.ambientRmsEma ≠
        (BargeInRmsDetector.init BargeInOptions.default).ambientRmsEma := by
  constructor
  · norm_num [BargeInOptions.default]
  · unfold BargeInRmsDetector.process
    rw [if_pos rfl, if_pos (by norm_num [BargeInOptions.default])]
    show updatedEma _ _ _ ≠ _
    norm_num [updatedEma, BargeInOptions.default, BargeInRmsDetector.init]

/-- C8: whenever a `final` transcript message is handled, the outstanding
partial-transcript element (if any) is removed before anything else
happens, so no residual partial remains displayed — for every `final`
message, including ones whose text is empty or a dedup duplicate, and
from every prior handler state. -/
theorem handleFinal_removesPartial (st : MsgHandlerState)
    (original inputLang outputLang translation : JsString) (nowMs : ℤ) :
    (handleMessage st (.transcriptFinal original inputLang outputLang translation)
        nowMs).currentPartialEl = none := by
  simp only [handleMessage]
  split_ifs <;> rfl

/-- The final message used by the C9 counterexample run. -/
def dedupMsg : WsMessage :=
  .transcriptFinal "hola".data "es".data "en".data "hola-t".data

/-- C9 counterexample: starting from a fresh handler, the same non-empty
final message is handled at times 0, 1 and 2500 ms.  The messages at 1
and at 2500 agree in both languages and (case-insensitively) in text and
are handled 2499 ms (< 2500 ms) apart, yet the one at 2500 ms *does*
append a new transcript entry: the dedup window is anchored at the last
*recorded* final (time 0), not at the previous message (time 1, which was
itself dropped and did not refresh `lastFinalAtMs`). -/
theorem finalDedup_counterexample :
    ((2500 : ℤ) - 1 < FINAL_DEDUP_WINDOW_MS) ∧
      (handleMessage (handleMessage (handleMessage initialHandlerState dedupMsg 0)
            dedupMsg 1) dedupMsg 2500).logEntries ≠
        (handleMessage (handleMessage initialHandlerState dedupMsg 0)
            dedupMsg 1).logEntries := by
  decide

/-- C9 (amended): for two final messages with the same `input_lang` and
`output_lang` and case-insensitively equal non-empty (trimmed) original
text, handled one after the other less than `FINAL_DEDUP_WINDOW_MS`
(2500 ms) apart, where the first is itself recorded (not dropped by the
dedup window), the second produces no new transcript entry. -/
theorem finalDedup_within_window (st : MsgHandlerState)
    (orig1 orig2 inputLang outputLang tr1 tr2 : JsString) (t1 t2 : ℤ)
    (hne : jsTrim orig1 ≠ [])
    (hci : jsToLower (jsTrim orig1) = jsToLower (jsTrim orig2))
    (hrec : ¬ (finalSignature inputLang outputLang (jsTrim orig1) = st.lastFinalSignature ∧
        t1 - st.lastFinalAtMs < FINAL_DEDUP_WINDOW_MS))
    (hwin : t2 - t1 < FINAL_DEDUP_WINDOW_MS) :
    (handleMessage (handleMessage st (.transcriptFinal orig1 inputLang outputLang tr1) t1)
        (.transcriptFinal orig2 inputLang outputLang tr2) t2).logEntries =
      (handleMessage st (.transcriptFinal orig1 inputLang outputLang tr1) t1).logEntries := by
  have hne2 : jsTrim orig2 ≠ [] := by
    intro h
    rw [h] at hci
    unfold jsToLower at hci
    rw [List.map_nil, List.map_eq_nil] at hci
    exact hne hci
  have hsig : finalSignature inputLang outputLang (jsTrim orig2) =
      finalSignature inputLang outputLang (jsTrim orig1) := by
    unfold finalSignature
    rw [hci]
  have h1 : handleMessage st (.transcriptFinal orig1 inputLang outputLang tr1) t1 =
      { st with
        currentPartialEl := none
        lastFinalSignature := finalSignature inputLang outputLang (jsTrim orig1)
        lastFinalAtMs := t1
        logEntries := st.logEntries ++
          [.finalLine (jsOrDefault inputLang ['S', 'R', 'C'])
            (jsOrDefault outputLang ['T', 'G', 'T']) (jsTrim orig1) tr1] } := by
    simp only [handleMessage]
    rw [if_neg hne, if_neg hrec]
  have hfin : ∀ s : MsgHandlerState,
      finalSignature inputLang outputLang (jsTrim orig2) = s.lastFinalSignature →
      t2 - s.lastFinalAtMs < FINAL_DEDUP_WINDOW_MS →
      handleMessage s (.transcriptFinal orig2 inputLang outputLang tr2) t2 =
        { s with currentPartialEl := none } := by
    intro s hs ht
    simp only [handleMessage]
    rw [if_neg hne2, if_pos ⟨hs, ht⟩]
  rw [hfin (handleMessage st (.transcriptFinal orig1 inputLang outputLang tr1) t1)
    (by rw [hsig, h1]) (by rw [h1]; exact hwin)]

/-- Witness for C9's amended rule: from a fresh handler, a recorded final
followed 100 ms later by a case-variant duplicate leaves the log
unchanged. -/
theorem finalDedup_within_window_witness :
    jsTrim "Hola".data ≠ [] ∧
      (handleMessage (handleMessage initialHandlerState
            (.transcriptFinal "Hola".data "es".data "en".data "t1".data) 0)
          (.transcriptFinal "hOLA".data "es".data "en".data "t2".data) 100).logEntries =
        (handleMessage initialHandlerState
            (.transcriptFinal "Hola".data "es".data "en".data "t1".data) 0).logEntries :=
  ⟨by decide,
   finalDedup_within_window initialHandlerState "Hola".data "hOLA".data "es".data
     "en".data "t1".data "t2".data 0 100 (by decide) (by decide) (by decide) (by decide)⟩

/-- C10: for every Float32 input sample, the PCM converter emits a value
in the Int16 range `[-32768, 32767]`: the sample is clamped to `[-1, 1]`
and scaled by `32768` when negative and `32767` otherwise, so neither the
scaled rational value nor the Int16 value actually stored overflows. -/
theorem convertSample_int16_range (x : ℚ) :
    (-32768 ≤ convertSample x ∧ convertSample x ≤ 32767) ∧
      (-32768 ≤ storedSample x ∧ storedSample x ≤ 32767) := by
  have hlo : (-1 : ℚ) ≤ max (-1) (min 1 x) := le_max_left _ _
  have hhi : max (-1) (min 1 x) ≤ 1 := max_le (by norm_num) (min_le_left _ _)
  have hq : -32768 ≤ convertSample x ∧ convertSample x ≤ 32767 := by
    unfold convertSample
    split_ifs with h
    · constructor <;> nlinarith
    · push_neg at h
      constructor <;> nlinarith
  refine ⟨hq, ?_⟩
  unfold storedSample ratTrunc
  split_ifs with h
  · constructor
    · exact le_trans (by norm_num) (Int.floor_nonneg.mpr h)
    · have h2 : (⌊convertSample x⌋ : ℤ) ≤ ⌊(32767 : ℚ)⌋ := Int.floor_le_floor hq.2
      simpa using h2
  · push_neg at h
    constructor
    · have h2 : (⌈(-32768 : ℚ)⌉ : ℤ) ≤ ⌈convertSample x⌉ := Int.ceil_le_ceil hq.1
      simpa using h2
    · have h2 : (⌈convertSample x⌉ : ℤ) ≤ ⌈(0 : ℚ)⌉ := Int.ceil_le_ceil h.le
      simp at h2
      omega

/-- C2: with one scheduled chunk of duration 2 s and 40 text characters
starting at `T`, a barge-in at `T + 1` sees
`played_text_percent = 50` in `getPlaybackStats()`, and the
(spec-modelled) orchestrator records a turn whose `spokenText` is the
20-character prefix (50% of 40) of the agent's text, with
`interrupted = true`. -/
theorem bargeIn_scenarioB (T : ℚ) (userText agentText : JsString)
    (hlen : agentText.length = 40) :
    ((scenarioBState T).getPlaybackStats (T + 1)).played_text_percent = 50 ∧
      (recordBargeInTurn userText agentText
          ((scenarioBState T).getPlaybackStats (T + 1))).spokenText.length = 20 ∧
      (recordBargeInTurn userText agentText
          ((scenarioBState T).getPlaybackStats (T + 1))).interrupted = true := by
  have hchunk : chunkPlayedText (T + 1) ⟨T, 2, 40, false⟩ = 20 := by
    unfold chunkPlayedText
    rw [if_neg (by
          push_neg
          refine ⟨by simp, ?_⟩
          show T + 1 < T + 2
          linarith),
        if_pos (by show T < T + 1; linarith)]
    show (40 : ℚ) * max 0 (min 1 ((T + 1 - T) / 2)) = 20
    have h12 : (T + 1 - T) / 2 = (1 : ℚ) / 2 := by ring
    rw [h12, min_eq_right (by norm_num), max_eq_right (by norm_num)]
    norm_num
  have hstats : ((scenarioBState T).getPlaybackStats (T + 1)).played_text_percent = 50 := by
    unfold TTSManager.getPlaybackStats scenarioBState
    rw [if_neg (by simp)]
    show jsToFixed 1 (max 0 (min 100
      (if 0 < (40 : ℚ) then
        ([⟨T, 2, 40, false⟩].map (chunkPlayedText (T + 1))).sum / 40 * 100 else 0))) = 50
    rw [List.map_singleton, List.sum_singleton, hchunk, if_pos (by norm_num)]
    rw [show (20 : ℚ) / 40 * 100 = 50 by norm_num,
      min_eq_right (by norm_num), max_eq_right (by norm_num)]
    unfold jsToFixed
    norm_num [Int.floor_eq_iff]
  refine ⟨hstats, ?_, rfl⟩
  show (spokenTextOfStats agentText
    ((scenarioBState T).getPlaybackStats (T + 1)).played_text_percent).length = 20
  rw [hstats]
  unfold spokenTextOfStats
  rw [hlen]
  rw [show ((40 : ℕ) : ℚ) * 50 / 100 = 20 by norm_num]
  rw [show ⌊(20 : ℚ)⌋ = 20 by norm_num]
  rw [List.length_take, hlen]
  decide

/-- Witness for C2 with `T = 0` and a concrete 40-character agent text. -/
theorem bargeIn_scenarioB_witness :
    (List.replicate 40 'a').length = 40 ∧
      (recordBargeInTurn [] (List.replicate 40 'a')
          ((scenarioBState 0).getPlaybackStats (0 + 1))).spokenText.length = 20 :=
  ⟨by simp, (bargeIn_scenarioB 0 [] (List.replicate 40 'a') (by simp)).2.1⟩
